import Mathlib

/-!
Verification of the E-Commerce-API repository (src/main.py).

The program is a Flask service over three SQLAlchemy-mapped entities —
`User`, `Orders`, `Products` — together with a many-to-many association
table `Order_Products` of (order_id, product_id) pairs, and the route
handlers `add_user`, `get_user`, `update_user`, `delete_user`,
`create_product`, `get_product`, `update_product`, `delete_product`,
`add_order`, `add_product`, `remove_product`, `get_orders_for_user`,
`get_products_for_order`.

Modelling conventions (spec §1 scopes the database out as an external
store and JSON-schema mechanics as external glue):

* The backing store is a `Store` record of entity lists plus the
  auto-increment counters of the three primary keys (MySQL assigns ids
  1, 2, 3, … per table).
* A JSON request body is an association list of string keys and JSON
  values (`Payload`); JSON numbers are modelled exactly as rationals
  (no arithmetic is ever performed on them). As in Python's `json`
  module, a repeated key resolves to its last occurrence.
* The marshmallow `SQLAlchemyAutoSchema` loaders are translated from
  what the model classes declare.  Under SQLAlchemy 2.0 declarative
  typing, a non-`Optional` `Mapped[...]` annotation makes the column
  `nullable=False`; marshmallow-sqlalchemy marks every non-nullable,
  non-autoincrement, default-free column as a required load field, and
  the autoincrement primary key `id` is dump-only.  Hence the load
  fields are: `User` → name, email, address (all required);
  `Products` → product_name, price (required); `Orders` (with
  `include_fk = True`) → order_date, user_id (required).  Unknown keys
  (including `id`) raise a `ValidationError` (marshmallow's default
  `unknown = RAISE`).  `partial=True` loads drop the required-ness but
  keep per-field type checks and the unknown-key check.
* marshmallow's coercion of numeric strings for Integer/Float fields
  and its ISO-date parsing are abstracted: a Date value is a string, a
  Float is a rational, an Integer is an integral rational.
* `db.session.delete` on a `Products` row also deletes the rows of the
  `secondary` association table that reference it (SQLAlchemy's
  default many-to-many bookkeeping); deleting a `User` removes only
  the user row — foreign-key enforcement inside the external database
  is outside the spec's boundary (spec §1, §9 "implicit cascade gaps").
-/

/-- A JSON scalar as it appears in the request bodies this API accepts:
a string or a number (numbers modelled exactly as rationals). -/
inductive JVal where
  | str (s : String)
  | num (q : Rat)
deriving DecidableEq, Repr

/-- A JSON object body: an association list of key/value pairs. -/
abbrev Payload := List (String × JVal)

/-- Look up a key in a JSON body; as in Python dicts built by `json.loads`,
the last occurrence of a repeated key wins. -/
def lookupKey (p : Payload) (k : String) : Option JVal :=
  (p.reverse.find? (fun kv => kv.1 = k)).map (fun kv => kv.2)

/-- marshmallow `String` field deserialization: accepts only strings. -/
def asStr : JVal → Option String
  | .str s => some s
  | _ => none

/-- marshmallow `Float` field deserialization: accepts a number. -/
def asNum : JVal → Option Rat
  | .num q => some q
  | _ => none

/-- marshmallow `Integer` field deserialization: accepts an integral number. -/
def asInt : JVal → Option Int
  | .num q => if q.den = 1 then some q.num else none
  | _ => none

/-- A row of the `User` table: `id` (autoincrement primary key),
`name`, `email`, `address` (all `String(225)`, non-nullable under the
SQLAlchemy 2.0 inference from `Mapped[str]`). -/
structure UserRec where
  id : Int
  name : String
  email : String
  address : String
deriving DecidableEq, Repr

/-- A row of the `products` table: `id`, `product_name`, `price`. -/
structure ProductRec where
  id : Int
  product_name : String
  price : Rat
deriving DecidableEq, Repr

/-- A row of the `orders` table: `id`, `order_date` (a date, modelled
as its string form), `user_id` (foreign key into `User`). -/
structure OrderRec where
  id : Int
  order_date : String
  user_id : Int
deriving DecidableEq, Repr

/-- The backing relational store: the three entity tables, the
`Order_Products` association table of (order_id, product_id) pairs,
and the next value of each table's autoincrement primary key. -/
structure Store where
  users : List UserRec
  products : List ProductRec
  orders : List OrderRec
  order_products : List (Int × Int)
  next_user_id : Int
  next_product_id : Int
  next_order_id : Int
deriving DecidableEq, Repr

/-- The store of a freshly created database: `db.create_all()` on an
empty schema; MySQL autoincrement counters start at 1. -/
def emptyStore : Store :=
  { users := [], products := [], orders := [], order_products := []
    next_user_id := 1, next_product_id := 1, next_order_id := 1 }

/-- `db.session.get(User, id)` / `select(User).where(User.id == id)`:
primary-key lookup in the user table. -/
def findUser (s : Store) (id : Int) : Option UserRec :=
  s.users.find? (fun u => u.id = id)

/-- `db.session.get(Products, id)`: primary-key lookup in the products table. -/
def findProduct (s : Store) (id : Int) : Option ProductRec :=
  s.products.find? (fun p => p.id = id)

/-- `db.session.get(Orders, id)`: primary-key lookup in the orders table. -/
def findOrder (s : Store) (id : Int) : Option OrderRec :=
  s.orders.find? (fun o => o.id = id)

/-- The load fields of `UserSchema` (relationships are excluded by
`SQLAlchemyAutoSchema`'s default, the primary key is dump-only). -/
def userKeys : List String := ["name", "email", "address"]

/-- The load fields of `ProductSchema`. -/
def productKeys : List String := ["product_name", "price"]

/-- The load fields of `OrderSchema` (`include_fk = True` adds `user_id`). -/
def orderKeys : List String := ["order_date", "user_id"]

/-- The result of a successful full `user_schema.load`. -/
structure LoadedUser where
  name : String
  email : String
  address : String
deriving DecidableEq, Repr

/-- `user_schema.load(request.json)`: rejects unknown keys, requires
`name`, `email` and `address`, each a string; `none` is the
marshmallow `ValidationError`. -/
def userSchemaLoad (p : Payload) : Option LoadedUser :=
  if p.all (fun kv => kv.1 ∈ userKeys) then
    match (lookupKey p "name").bind asStr, (lookupKey p "email").bind asStr,
          (lookupKey p "address").bind asStr with
    | some n, some e, some a => some ⟨n, e, a⟩
    | _, _, _ => none
  else none

/-- The result of a successful `user_schema.load(..., partial=True)`:
each field is present or absent. -/
structure UserPatch where
  name : Option String
  email : Option String
  address : Option String
deriving DecidableEq, Repr

/-- Deserialize one optional schema field: absent is fine, a present
value must have the field's type. -/
def loadOptField (α : Type) (f : JVal → Option α) (p : Payload) (k : String) :
    Option (Option α) :=
  match lookupKey p k with
  | none => some none
  | some v => (f v).map some

/-- `user_schema.load(request.json, partial=True)`: rejects unknown
keys and ill-typed present values; absent keys load as absent. -/
def userSchemaLoadPatch (p : Payload) : Option UserPatch :=
  if p.all (fun kv => kv.1 ∈ userKeys) then
    match loadOptField String asStr p "name", loadOptField String asStr p "email",
          loadOptField String asStr p "address" with
    | some n, some e, some a => some ⟨n, e, a⟩
    | _, _, _ => none
  else none

/-- The result of a successful full `product_schema.load`. -/
structure LoadedProduct where
  product_name : String
  price : Rat
deriving DecidableEq, Repr

/-- `product_schema.load(request.json)`: requires `product_name`
(string) and `price` (number), rejects unknown keys. -/
def productSchemaLoad (p : Payload) : Option LoadedProduct :=
  if p.all (fun kv => kv.1 ∈ productKeys) then
    match (lookupKey p "product_name").bind asStr, (lookupKey p "price").bind asNum with
    | some n, some q => some ⟨n, q⟩
    | _, _ => none
  else none

/-- The result of a successful `product_schema.load(..., partial=True)`. -/
structure ProductPatch where
  product_name : Option String
  price : Option Rat
deriving DecidableEq, Repr

/-- `product_schema.load(request.json, partial=True)`. -/
def productSchemaLoadPatch (p : Payload) : Option ProductPatch :=
  if p.all (fun kv => kv.1 ∈ productKeys) then
    match loadOptField String asStr p "product_name", loadOptField Rat asNum p "price" with
    | some n, some q => some ⟨n, q⟩
    | _, _ => none
  else none

/-- The result of a successful full `order_schema.load`. -/
structure LoadedOrder where
  order_date : String
  user_id : Int
deriving DecidableEq, Repr

/-- `order_schema.load(request.json)`: requires `order_date` (a date
string) and `user_id` (an integer), rejects unknown keys. -/
def orderSchemaLoad (p : Payload) : Option LoadedOrder :=
  if p.all (fun kv => kv.1 ∈ orderKeys) then
    match (lookupKey p "order_date").bind asStr, (lookupKey p "user_id").bind asInt with
    | some d, some uid => some ⟨d, uid⟩
    | _, _ => none
  else none

/-- Result of `POST /users`: 201 with the created row, or 400 on a
schema `ValidationError`. -/
inductive CreateUserResult where
  | created (u : UserRec)
  | validationError
deriving DecidableEq, Repr

/-- HTTP status of a `POST /users` response. -/
def CreateUserResult.status : CreateUserResult → Nat
  | .created _ => 201
  | .validationError => 400

/-- Handler `add_user` (`POST /users`): load the body through
`user_schema`, then insert a `User` built from `name`, `email`,
`address`, with the next autoincrement id. -/
def add_user (s : Store) (p : Payload) : Store × CreateUserResult :=
  match userSchemaLoad p with
  | none => (s, .validationError)
  | some d =>
    let u : UserRec := ⟨s.next_user_id, d.name, d.email, d.address⟩
    ({ s with users := s.users ++ [u], next_user_id := s.next_user_id + 1 },
     .created u)

/-- Result of `GET /users/<id>`: 200 with the row, or 404. -/
inductive GetUserResult where
  | ok (u : UserRec)
  | notFound
deriving DecidableEq, Repr

/-- HTTP status of a `GET /users/<id>` response. -/
def GetUserResult.status : GetUserResult → Nat
  | .ok _ => 200
  | .notFound => 404

/-- Handler `get_user` (`GET /users/<id>`): `select(User).where(User.id
== id)`, 404 `"User not found"` when no row matches. -/
def get_user (s : Store) (id : Int) : GetUserResult :=
  match findUser s id with
  | some u => .ok u
  | none => .notFound

/-- Result of `PUT /users/<id>` and `PUT /products/<id>`: 200 with the
updated row, 404 when the id is absent, 400 on a `ValidationError`. -/
inductive UpdateResult (α : Type) where
  | updated (u : α)
  | notFound
  | validationError
deriving DecidableEq, Repr

/-- HTTP status of an update response. -/
def UpdateResult.status {α : Type} : UpdateResult α → Nat
  | .updated _ => 200
  | .notFound => 404
  | .validationError => 400

/-- Apply a partial user load to an existing row: the handler's three
`if 'field' in user_data` assignments. -/
def applyUserPatch (d : UserPatch) (u : UserRec) : UserRec :=
  { u with name := d.name.getD u.name
           email := d.email.getD u.email
           address := d.address.getD u.address }

/-- Handler `update_user` (`PUT /users/<id>`): first `db.session.get`,
404 if absent; then `user_schema.load(..., partial=True)`, 400 if it
raises; then overwrite exactly the fields present in the load. -/
def update_user (s : Store) (id : Int) (p : Payload) : Store × UpdateResult UserRec :=
  match findUser s id with
  | none => (s, .notFound)
  | some u =>
    match userSchemaLoadPatch p with
    | none => (s, .validationError)
    | some d =>
      ({ s with users := s.users.map (fun v => if v.id = id then applyUserPatch d v else v) },
       .updated (applyUserPatch d u))

/-- Result of `DELETE /users/<id>` and `DELETE /products/<id>`. -/
inductive DeleteResult where
  | deleted
  | notFound
deriving DecidableEq, Repr

/-- HTTP status of a delete response. -/
def DeleteResult.status : DeleteResult → Nat
  | .deleted => 200
  | .notFound => 404

/-- Handler `delete_user` (`DELETE /users/<id>`): `db.session.get`,
404 if absent, else delete the row.  The spec places database-side
foreign-key enforcement outside the boundary, so the delete removes
only the user row (orders keep their `user_id`, spec §9). -/
def delete_user (s : Store) (id : Int) : Store × DeleteResult :=
  match findUser s id with
  | none => (s, .notFound)
  | some _ =>
    ({ s with users := s.users.filter (fun u => u.id ≠ id) }, .deleted)

/-- Result of `POST /products`. -/
inductive CreateProductResult where
  | created (p : ProductRec)
  | validationError
deriving DecidableEq, Repr

/-- HTTP status of a `POST /products` response. -/
def CreateProductResult.status : CreateProductResult → Nat
  | .created _ => 201
  | .validationError => 400

/-- Handler `create_product` (`POST /products`). -/
def create_product (s : Store) (p : Payload) : Store × CreateProductResult :=
  match productSchemaLoad p with
  | none => (s, .validationError)
  | some d =>
    let pr : ProductRec := ⟨s.next_product_id, d.product_name, d.price⟩
    ({ s with products := s.products ++ [pr], next_product_id := s.next_product_id + 1 },
     .created pr)

/-- Result of `GET /products/<id>`. -/
inductive GetProductResult where
  | ok (p : ProductRec)
  | notFound
deriving DecidableEq, Repr

/-- Handler `get_product` (`GET /products/<id>`). -/
def get_product (s : Store) (id : Int) : GetProductResult :=
  match findProduct s id with
  | some pr => .ok pr
  | none => .notFound

/-- Apply a partial product load to an existing row. -/
def applyProductPatch (d : ProductPatch) (pr : ProductRec) : ProductRec :=
  { pr with product_name := d.product_name.getD pr.product_name
            price := d.price.getD pr.price }

/-- Handler `update_product` (`PUT /products/<id>`): existence check
first (404), then partial load (400), then per-field overwrite. -/
def update_product (s : Store) (id : Int) (p : Payload) : Store × UpdateResult ProductRec :=
  match findProduct s id with
  | none => (s, .notFound)
  | some pr =>
    match productSchemaLoadPatch p with
    | none => (s, .validationError)
    | some d =>
      ({ s with
          products := s.products.map (fun v => if v.id = id then applyProductPatch d v else v) },
       .updated (applyProductPatch d pr))

/-- Handler `delete_product` (`DELETE /products/<id>`): delete the row;
SQLAlchemy's many-to-many bookkeeping also deletes the association
rows that reference the deleted product. -/
def delete_product (s : Store) (id : Int) : Store × DeleteResult :=
  match findProduct s id with
  | none => (s, .notFound)
  | some _ =>
    ({ s with products := s.products.filter (fun pr => pr.id ≠ id)
              order_products := s.order_products.filter (fun pr => pr.2 ≠ id) },
     .deleted)

/-- Result of `POST /orders`: 201 with the created row, 400 on schema
`ValidationError`, or 400 `"Invalid customer id"` when the referenced
user does not exist. -/
inductive CreateOrderResult where
  | created (o : OrderRec)
  | validationError
  | invalidCustomer
deriving DecidableEq, Repr

/-- HTTP status of a `POST /orders` response. -/
def CreateOrderResult.status : CreateOrderResult → Nat
  | .created _ => 201
  | .validationError => 400
  | .invalidCustomer => 400

/-- Handler `add_order` (`POST /orders`): load through `order_schema`
(400 on failure), then `db.session.get(User, user_id)`; if the user
exists insert the order, else 400 `"Invalid customer id"`. -/
def add_order (s : Store) (p : Payload) : Store × CreateOrderResult :=
  match orderSchemaLoad p with
  | none => (s, .validationError)
  | some d =>
    match findUser s d.user_id with
    | some _ =>
      let o : OrderRec := ⟨s.next_order_id, d.order_date, d.user_id⟩
      ({ s with orders := s.orders ++ [o], next_order_id := s.next_order_id + 1 },
       .created o)
    | none => (s, .invalidCustomer)

/-- Result of `PUT /orders/<order_id>/add_product/<product_id>`:
200 `"Successfully added item to order."`,
400 `"Item is already included in this order."`, or
400 `"Invalid order id or product id."`. -/
inductive AttachResult where
  | success
  | conflict
  | invalidIds
deriving DecidableEq, Repr

/-- HTTP status of an attach response. -/
def AttachResult.status : AttachResult → Nat
  | .success => 200
  | .conflict => 400
  | .invalidIds => 400

/-- Handler `add_product` (`PUT /orders/<order_id>/add_product/<product_id>`):
fetch both rows by primary key; if both exist and the product is not
yet in `order.products` (i.e. the pair is not in the association
table), append the pair; an already-present pair is a conflict; a
missing order or product is `"Invalid order id or product id."`. -/
def add_product (s : Store) (order_id product_id : Int) : Store × AttachResult :=
  match findOrder s order_id, findProduct s product_id with
  | some _, some _ =>
    if (order_id, product_id) ∈ s.order_products then
      (s, .conflict)
    else
      ({ s with order_products := s.order_products ++ [(order_id, product_id)] }, .success)
  | _, _ => (s, .invalidIds)

/-- Result of `DELETE /orders/<order_id>/remove_product/<product_id>`:
200 `"Product removed from order."`,
400 `"Product not found in this order."`, or
400 `"Invalid order id or product id."`. -/
inductive DetachResult where
  | success
  | notInOrder
  | invalidIds
deriving DecidableEq, Repr

/-- HTTP status of a detach response. -/
def DetachResult.status : DetachResult → Nat
  | .success => 200
  | .notInOrder => 400
  | .invalidIds => 400

/-- Handler `remove_product`
(`DELETE /orders/<order_id>/remove_product/<product_id>`): fetch both
rows; if both exist and the product is in `order.products`, delete the
association pair; an absent pair is 400 `"Product not found in this
order."`; a missing order or product is the invalid-ids 400. -/
def remove_product (s : Store) (order_id product_id : Int) : Store × DetachResult :=
  match findOrder s order_id, findProduct s product_id with
  | some _, some _ =>
    if (order_id, product_id) ∈ s.order_products then
      ({ s with order_products := s.order_products.filter (fun pr => pr ≠ (order_id, product_id)) },
       .success)
    else
      (s, .notInOrder)
  | _, _ => (s, .invalidIds)

/-- `user.orders`: the one-to-many relationship, all orders whose
`user_id` is the user's id. -/
def ordersForUser (s : Store) (user_id : Int) : List OrderRec :=
  s.orders.filter (fun o => o.user_id = user_id)

/-- Result of `GET /orders/user/<user_id>`. -/
inductive ListOrdersResult where
  | ok (os : List OrderRec)
  | notFound
deriving DecidableEq, Repr

/-- Handler `get_orders_for_user` (`GET /orders/user/<user_id>`):
404 when the user is absent, else the user's orders. -/
def get_orders_for_user (s : Store) (user_id : Int) : ListOrdersResult :=
  match findUser s user_id with
  | none => .notFound
  | some u => .ok (ordersForUser s u.id)

/-- `order.products`: the many-to-many relationship through the
association table — the product row of every pair whose order side is
this order. -/
def productsForOrder (s : Store) (order_id : Int) : List ProductRec :=
  (s.order_products.filter (fun pr => pr.1 = order_id)).filterMap
    (fun pr => findProduct s pr.2)

/-- Result of `GET /orders/<order_id>/products`. -/
inductive ListProductsResult where
  | ok (ps : List ProductRec)
  | notFound
deriving DecidableEq, Repr

/-- HTTP status of a `GET /orders/<order_id>/products` response. -/
def ListProductsResult.status : ListProductsResult → Nat
  | .ok _ => 200
  | .notFound => 404

/-- Handler `get_products_for_order` (`GET /orders/<order_id>/products`):
404 `"Order not found"` when the order is absent, else the order's
products. -/
def get_products_for_order (s : Store) (order_id : Int) : ListProductsResult :=
  match findOrder s order_id with
  | none => .notFound
  | some o => .ok (productsForOrder s o.id)

/-- One state-changing request to the service (the read-only handlers
`get_user`, `get_customers`, `get_products`, `get_product`,
`get_orders_for_user`, `get_products_for_order` and `home` never write
to the store, so a request sequence changes the store exactly through
these operations). -/
inductive Op where
  | addUser (p : Payload)
  | updateUser (id : Int) (p : Payload)
  | deleteUser (id : Int)
  | createProduct (p : Payload)
  | updateProduct (id : Int) (p : Payload)
  | deleteProduct (id : Int)
  | addOrder (p : Payload)
  | attachProduct (order_id product_id : Int)
  | detachProduct (order_id product_id : Int)

/-- The store left behind by one request. -/
def applyOp (s : Store) : Op → Store
  | .addUser p => (add_user s p).1
  | .updateUser id p => (update_user s id p).1
  | .deleteUser id => (delete_user s id).1
  | .createProduct p => (create_product s p).1
  | .updateProduct id p => (update_product s id p).1
  | .deleteProduct id => (delete_product s id).1
  | .addOrder p => (add_order s p).1
  | .attachProduct oid pid => (add_product s oid pid).1
  | .detachProduct oid pid => (remove_product s oid pid).1

/-- The stores reachable from the freshly created database by some
sequence of requests. -/
inductive Reachable : Store → Prop
  | empty : Reachable emptyStore
  | step (s : Store) (op : Op) : Reachable s → Reachable (applyOp s op)

/-- Internal invariant of every reachable store: the association table
has no duplicate pairs, both sides of every pair reference live rows,
and every user id is below the autoincrement counter. -/
structure StoreInv (s : Store) : Prop where
  assoc_nodup : s.order_products.Nodup
  assoc_order_live : ∀ pr ∈ s.order_products, ∃ o ∈ s.orders, o.id = pr.1
  assoc_product_live : ∀ pr ∈ s.order_products, ∃ q ∈ s.products, q.id = pr.2
  user_id_lt : ∀ u ∈ s.users, u.id < s.next_user_id

theorem findUser_id {s : Store} {id : Int} {u : UserRec} (h : findUser s id = some u) :
    u.id = id := by
  simpa using List.find?_some h

theorem findUser_mem {s : Store} {id : Int} {u : UserRec} (h : findUser s id = some u) :
    u ∈ s.users :=
  List.mem_of_find?_eq_some h

theorem findProduct_id {s : Store} {id : Int} {q : ProductRec} (h : findProduct s id = some q) :
    q.id = id := by
  simpa using List.find?_some h

theorem findProduct_mem {s : Store} {id : Int} {q : ProductRec} (h : findProduct s id = some q) :
    q ∈ s.products :=
  List.mem_of_find?_eq_some h

theorem findOrder_id {s : Store} {id : Int} {o : OrderRec} (h : findOrder s id = some o) :
    o.id = id := by
  simpa using List.find?_some h

theorem findOrder_mem {s : Store} {id : Int} {o : OrderRec} (h : findOrder s id = some o) :
    o ∈ s.orders :=
  List.mem_of_find?_eq_some h


/-! ### Branch equations of the handlers -/

theorem add_user_eq_of_load_none {s : Store} {p : Payload}
    (h : userSchemaLoad p = none) :
    add_user s p = (s, .validationError) := by
  simp [add_user, h]

theorem add_user_eq_of_load_some {s : Store} {p : Payload} {d : LoadedUser}
    (h : userSchemaLoad p = some d) :
    add_user s p =
      ({ s with users := s.users ++ [⟨s.next_user_id, d.name, d.email, d.address⟩],
                next_user_id := s.next_user_id + 1 },
       .created ⟨s.next_user_id, d.name, d.email, d.address⟩) := by
  simp [add_user, h]

theorem update_user_eq_of_find_none {s : Store} {id : Int} {p : Payload}
    (h : findUser s id = none) :
    update_user s id p = (s, .notFound) := by
  simp [update_user, h]

theorem update_user_eq_of_patch_none {s : Store} {id : Int} {p : Payload} {u : UserRec}
    (h : findUser s id = some u) (hp : userSchemaLoadPatch p = none) :
    update_user s id p = (s, .validationError) := by
  simp [update_user, h, hp]

theorem update_user_eq_of_patch_some {s : Store} {id : Int} {p : Payload}
    {u : UserRec} {d : UserPatch}
    (h : findUser s id = some u) (hp : userSchemaLoadPatch p = some d) :
    update_user s id p =
      ({ s with users := s.users.map (fun v => if v.id = id then applyUserPatch d v else v) },
       .updated (applyUserPatch d u)) := by
  simp [update_user, h, hp]

theorem delete_user_eq_of_find_none {s : Store} {id : Int}
    (h : findUser s id = none) :
    delete_user s id = (s, .notFound) := by
  simp [delete_user, h]

theorem delete_user_eq_of_find_some {s : Store} {id : Int} {u : UserRec}
    (h : findUser s id = some u) :
    delete_user s id =
      ({ s with users := s.users.filter (fun v => v.id ≠ id) }, .deleted) := by
  simp [delete_user, h]

theorem create_product_eq_of_load_none {s : Store} {p : Payload}
    (h : productSchemaLoad p = none) :
    create_product s p = (s, .validationError) := by
  simp [create_product, h]

theorem create_product_eq_of_load_some {s : Store} {p : Payload} {d : LoadedProduct}
    (h : productSchemaLoad p = some d) :
    create_product s p =
      ({ s with products := s.products ++ [⟨s.next_product_id, d.product_name, d.price⟩],
                next_product_id := s.next_product_id + 1 },
       .created ⟨s.next_product_id, d.product_name, d.price⟩) := by
  simp [create_product, h]

theorem update_product_eq_of_find_none {s : Store} {id : Int} {p : Payload}
    (h : findProduct s id = none) :
    update_product s id p = (s, .notFound) := by
  simp [update_product, h]

theorem update_product_eq_of_patch_none {s : Store} {id : Int} {p : Payload} {q : ProductRec}
    (h : findProduct s id = some q) (hp : productSchemaLoadPatch p = none) :
    update_product s id p = (s, .validationError) := by
  simp [update_product, h, hp]

theorem update_product_eq_of_patch_some {s : Store} {id : Int} {p : Payload}
    {q : ProductRec} {d : ProductPatch}
    (h : findProduct s id = some q) (hp : productSchemaLoadPatch p = some d) :
    update_product s id p =
      ({ s with
          products := s.products.map (fun v => if v.id = id then applyProductPatch d v else v) },
       .updated (applyProductPatch d q)) := by
  simp [update_product, h, hp]

theorem delete_product_eq_of_find_none {s : Store} {id : Int}
    (h : findProduct s id = none) :
    delete_product s id = (s, .notFound) := by
  simp [delete_product, h]

theorem delete_product_eq_of_find_some {s : Store} {id : Int} {q : ProductRec}
    (h : findProduct s id = some q) :
    delete_product s id =
      ({ s with products := s.products.filter (fun v => v.id ≠ id)
                order_products := s.order_products.filter (fun pr => pr.2 ≠ id) },
       .deleted) := by
  simp [delete_product, h]

theorem add_order_eq_of_load_none {s : Store} {p : Payload}
    (h : orderSchemaLoad p = none) :
    add_order s p = (s, .validationError) := by
  simp [add_order, h]

theorem add_order_eq_of_user_none {s : Store} {p : Payload} {d : LoadedOrder}
    (h : orderSchemaLoad p = some d) (hu : findUser s d.user_id = none) :
    add_order s p = (s, .invalidCustomer) := by
  simp [add_order, h, hu]

theorem add_order_eq_of_user_some {s : Store} {p : Payload} {d : LoadedOrder} {u : UserRec}
    (h : orderSchemaLoad p = some d) (hu : findUser s d.user_id = some u) :
    add_order s p =
      ({ s with orders := s.orders ++ [⟨s.next_order_id, d.order_date, d.user_id⟩],
                next_order_id := s.next_order_id + 1 },
       .created ⟨s.next_order_id, d.order_date, d.user_id⟩) := by
  simp [add_order, h, hu]

theorem add_product_eq_of_invalid {s : Store} {oid pid : Int}
    (h : findOrder s oid = none ∨ findProduct s pid = none) :
    add_product s oid pid = (s, .invalidIds) := by
  rcases h with h | h
  · simp [add_product, h]
  · cases h1 : findOrder s oid <;> simp [add_product, h1, h]

theorem add_product_eq_of_mem {s : Store} {oid pid : Int} {o : OrderRec} {q : ProductRec}
    (ho : findOrder s oid = some o) (hp : findProduct s pid = some q)
    (hm : (oid, pid) ∈ s.order_products) :
    add_product s oid pid = (s, .conflict) := by
  simp [add_product, ho, hp, hm]

theorem add_product_eq_of_not_mem {s : Store} {oid pid : Int} {o : OrderRec} {q : ProductRec}
    (ho : findOrder s oid = some o) (hp : findProduct s pid = some q)
    (hm : (oid, pid) ∉ s.order_products) :
    add_product s oid pid =
      ({ s with order_products := s.order_products ++ [(oid, pid)] }, .success) := by
  simp [add_product, ho, hp, hm]

theorem remove_product_eq_of_invalid {s : Store} {oid pid : Int}
    (h : findOrder s oid = none ∨ findProduct s pid = none) :
    remove_product s oid pid = (s, .invalidIds) := by
  rcases h with h | h
  · simp [remove_product, h]
  · cases h1 : findOrder s oid <;> simp [remove_product, h1, h]

theorem remove_product_eq_of_not_mem {s : Store} {oid pid : Int} {o : OrderRec} {q : ProductRec}
    (ho : findOrder s oid = some o) (hp : findProduct s pid = some q)
    (hm : (oid, pid) ∉ s.order_products) :
    remove_product s oid pid = (s, .notInOrder) := by
  simp [remove_product, ho, hp, hm]

theorem remove_product_eq_of_mem {s : Store} {oid pid : Int} {o : OrderRec} {q : ProductRec}
    (ho : findOrder s oid = some o) (hp : findProduct s pid = some q)
    (hm : (oid, pid) ∈ s.order_products) :
    remove_product s oid pid =
      ({ s with
          order_products := s.order_products.filter (fun pr => pr ≠ (oid, pid)) },
       .success) := by
  simp [remove_product, ho, hp, hm]

theorem storeInv_applyOp {s : Store} (h : StoreInv s) (op : Op) : StoreInv (applyOp s op) := by
  obtain ⟨hnd, hol, hpl, hul⟩ := h
  cases op with
  | addUser p =>
    simp only [applyOp]
    cases hld : userSchemaLoad p with
    | none => rw [add_user_eq_of_load_none hld]; exact ⟨hnd, hol, hpl, hul⟩
    | some d =>
      rw [add_user_eq_of_load_some hld]
      refine ⟨hnd, hol, hpl, ?_⟩
      intro u hu
      show u.id < s.next_user_id + 1
      rcases List.mem_append.1 hu with h1 | h1
      · have := hul u h1; omega
      · simp only [List.mem_singleton] at h1
        subst h1
        show s.next_user_id < s.next_user_id + 1
        omega
  | updateUser id p =>
    simp only [applyOp]
    cases hfu : findUser s id with
    | none => rw [update_user_eq_of_find_none hfu]; exact ⟨hnd, hol, hpl, hul⟩
    | some u =>
      cases hld : userSchemaLoadPatch p with
      | none => rw [update_user_eq_of_patch_none hfu hld]; exact ⟨hnd, hol, hpl, hul⟩
      | some d =>
        rw [update_user_eq_of_patch_some hfu hld]
        refine ⟨hnd, hol, hpl, ?_⟩
        intro v hv
        simp only [List.mem_map] at hv
        obtain ⟨w, hw, rfl⟩ := hv
        have hid : (if w.id = id then applyUserPatch d w else w).id = w.id := by
          split <;> rfl
        show (if w.id = id then applyUserPatch d w else w).id < s.next_user_id
        rw [hid]
        exact hul w hw
  | deleteUser id =>
    simp only [applyOp]
    cases hfu : findUser s id with
    | none => rw [delete_user_eq_of_find_none hfu]; exact ⟨hnd, hol, hpl, hul⟩
    | some u =>
      rw [delete_user_eq_of_find_some hfu]
      refine ⟨hnd, hol, hpl, ?_⟩
      intro v hv
      exact hul v (List.mem_of_mem_filter hv)
  | createProduct p =>
    simp only [applyOp]
    cases hld : productSchemaLoad p with
    | none => rw [create_product_eq_of_load_none hld]; exact ⟨hnd, hol, hpl, hul⟩
    | some d =>
      rw [create_product_eq_of_load_some hld]
      refine ⟨hnd, hol, ?_, hul⟩
      intro pr hpr
      obtain ⟨q, hq, hqe⟩ := hpl pr hpr
      exact ⟨q, List.mem_append_left _ hq, hqe⟩
  | updateProduct id p =>
    simp only [applyOp]
    cases hfp : findProduct s id with
    | none => rw [update_product_eq_of_find_none hfp]; exact ⟨hnd, hol, hpl, hul⟩
    | some pr0 =>
      cases hld : productSchemaLoadPatch p with
      | none => rw [update_product_eq_of_patch_none hfp hld]; exact ⟨hnd, hol, hpl, hul⟩
      | some d =>
        rw [update_product_eq_of_patch_some hfp hld]
        refine ⟨hnd, hol, ?_, hul⟩
        intro pr hpr
        obtain ⟨q, hq, hqe⟩ := hpl pr hpr
        refine ⟨if q.id = id then applyProductPatch d q else q,
          List.mem_map_of_mem _ hq, ?_⟩
        have hid : (if q.id = id then applyProductPatch d q else q).id = q.id := by
          split <;> rfl
        rw [hid]; exact hqe
  | deleteProduct id =>
    simp only [applyOp]
    cases hfp : findProduct s id with
    | none => rw [delete_product_eq_of_find_none hfp]; exact ⟨hnd, hol, hpl, hul⟩
    | some pr0 =>
      rw [delete_product_eq_of_find_some hfp]
      refine ⟨hnd.filter _, ?_, ?_, hul⟩
      · intro pr hpr
        exact hol pr (List.mem_of_mem_filter hpr)
      · intro pr hpr
        have hmem := List.mem_of_mem_filter hpr
        have hne : pr.2 ≠ id := by simpa using List.of_mem_filter hpr
        obtain ⟨q, hq, hqe⟩ := hpl pr hmem
        refine ⟨q, ?_, hqe⟩
        rw [List.mem_filter]
        exact ⟨hq, by simp [hqe, hne]⟩
  | addOrder p =>
    simp only [applyOp]
    cases hld : orderSchemaLoad p with
    | none => rw [add_order_eq_of_load_none hld]; exact ⟨hnd, hol, hpl, hul⟩
    | some d =>
      cases hfu : findUser s d.user_id with
      | none => rw [add_order_eq_of_user_none hld hfu]; exact ⟨hnd, hol, hpl, hul⟩
      | some u =>
        rw [add_order_eq_of_user_some hld hfu]
        refine ⟨hnd, ?_, hpl, hul⟩
        intro pr hpr
        obtain ⟨o, ho, hoe⟩ := hol pr hpr
        exact ⟨o, List.mem_append_left _ ho, hoe⟩
  | attachProduct oid pid =>
    simp only [applyOp]
    cases hfo : findOrder s oid with
    | none => rw [add_product_eq_of_invalid (Or.inl hfo)]; exact ⟨hnd, hol, hpl, hul⟩
    | some o =>
      cases hfp : findProduct s pid with
      | none => rw [add_product_eq_of_invalid (Or.inr hfp)]; exact ⟨hnd, hol, hpl, hul⟩
      | some q =>
        by_cases hm : (oid, pid) ∈ s.order_products
        · rw [add_product_eq_of_mem hfo hfp hm]; exact ⟨hnd, hol, hpl, hul⟩
        · rw [add_product_eq_of_not_mem hfo hfp hm]
          refine ⟨?_, ?_, ?_, hul⟩
          · rw [List.nodup_append]
            refine ⟨hnd, List.nodup_singleton _, ?_⟩
            intro a ha hb
            simp only [List.mem_singleton] at hb
            subst hb; exact hm ha
          · intro pr hpr
            rcases List.mem_append.1 hpr with h1 | h1
            · exact hol pr h1
            · simp only [List.mem_singleton] at h1
              subst h1
              exact ⟨o, findOrder_mem hfo, findOrder_id hfo⟩
          · intro pr hpr
            rcases List.mem_append.1 hpr with h1 | h1
            · exact hpl pr h1
            · simp only [List.mem_singleton] at h1
              subst h1
              exact ⟨q, findProduct_mem hfp, findProduct_id hfp⟩
  | detachProduct oid pid =>
    simp only [applyOp]
    cases hfo : findOrder s oid with
    | none => rw [remove_product_eq_of_invalid (Or.inl hfo)]; exact ⟨hnd, hol, hpl, hul⟩
    | some o =>
      cases hfp : findProduct s pid with
      | none => rw [remove_product_eq_of_invalid (Or.inr hfp)]; exact ⟨hnd, hol, hpl, hul⟩
      | some q =>
        by_cases hm : (oid, pid) ∈ s.order_products
        · rw [remove_product_eq_of_mem hfo hfp hm]
          refine ⟨hnd.filter _, ?_, ?_, hul⟩
          · intro pr hpr
            exact hol pr (List.mem_of_mem_filter hpr)
          · intro pr hpr
            exact hpl pr (List.mem_of_mem_filter hpr)
        · rw [remove_product_eq_of_not_mem hfo hfp hm]; exact ⟨hnd, hol, hpl, hul⟩

theorem storeInv_reachable {s : Store} (h : Reachable s) : StoreInv s := by
  induction h with
  | empty =>
    exact ⟨by simp [emptyStore], by simp [emptyStore], by simp [emptyStore],
      by simp [emptyStore]⟩
  | step s op _ ih => exact storeInv_applyOp ih op

theorem get_user_eq_of_none {s : Store} {id : Int} (h : findUser s id = none) :
    get_user s id = .notFound := by
  simp [get_user, h]

theorem get_user_eq_of_some {s : Store} {id : Int} {u : UserRec} (h : findUser s id = some u) :
    get_user s id = .ok u := by
  simp [get_user, h]

theorem get_products_for_order_eq_of_none {s : Store} {oid : Int}
    (h : findOrder s oid = none) :
    get_products_for_order s oid = .notFound := by
  simp [get_products_for_order, h]

theorem get_products_for_order_eq_of_some {s : Store} {oid : Int} {o : OrderRec}
    (h : findOrder s oid = some o) :
    get_products_for_order s oid = .ok (productsForOrder s o.id) := by
  simp [get_products_for_order, h]

/-- A sample store: one user, one product, one order, empty association
table — the state after `POST /users`, `POST /products`, `POST /orders`
on a fresh database. -/
def demoStore : Store :=
  { users := [⟨1, "Ann", "ann@x.com", "1 Main St"⟩]
    products := [⟨1, "Widget", 5⟩]
    orders := [⟨1, "2024-01-01", 1⟩]
    order_products := []
    next_user_id := 2, next_product_id := 2, next_order_id := 2 }

/-- The sample store with the product attached to the order. -/
def demoStore2 : Store := { demoStore with order_products := [(1, 1)] }

/-- C1: `attach_product(order_id, product_id)` fails with the 400
`"Invalid order id or product id."` response if either id does not
resolve to an existing Order or Product; fails with the 400 conflict if
the pair is already in the association set; otherwise inserts the pair
and succeeds with 200 — and attaching the same pair twice yields first
success, then the conflict. -/
theorem attach_product_three_way (s : Store) (oid pid : Int) :
    ((findOrder s oid = none ∨ findProduct s pid = none) →
      add_product s oid pid = (s, .invalidIds) ∧ AttachResult.invalidIds.status = 400) ∧
    (∀ o q, findOrder s oid = some o → findProduct s pid = some q →
      ((oid, pid) ∈ s.order_products →
        add_product s oid pid = (s, .conflict) ∧ AttachResult.conflict.status = 400) ∧
      ((oid, pid) ∉ s.order_products →
        add_product s oid pid =
          ({ s with order_products := s.order_products ++ [(oid, pid)] }, .success) ∧
        AttachResult.success.status = 200 ∧
        (add_product (add_product s oid pid).1 oid pid).2 = .conflict)) := by
  refine ⟨fun h => ⟨add_product_eq_of_invalid h, rfl⟩, ?_⟩
  intro o q ho hp
  refine ⟨fun hm => ⟨add_product_eq_of_mem ho hp hm, rfl⟩, fun hm => ?_⟩
  have h1 := add_product_eq_of_not_mem ho hp hm
  refine ⟨h1, rfl, ?_⟩
  have key : (add_product s oid pid).1 =
      { s with order_products := s.order_products ++ [(oid, pid)] } := by rw [h1]
  rw [key]
  have ho' : findOrder { s with order_products := s.order_products ++ [(oid, pid)] } oid
      = some o := ho
  have hp' : findProduct { s with order_products := s.order_products ++ [(oid, pid)] } pid
      = some q := hp
  have hm' : (oid, pid) ∈
      ({ s with order_products := s.order_products ++ [(oid, pid)] }).order_products :=
    List.mem_append_right _ (List.mem_singleton.2 rfl)
  rw [add_product_eq_of_mem ho' hp' hm']

theorem attach_product_three_way_witness :
    (add_product demoStore 1 1).2 = AttachResult.success ∧
    (add_product (add_product demoStore 1 1).1 1 1).2 = AttachResult.conflict := by
  have h := ((attach_product_three_way demoStore 1 1).2
    ⟨1, "2024-01-01", 1⟩ ⟨1, "Widget", 5⟩ rfl rfl).2 (by decide)
  exact ⟨by rw [h.1], h.2.2⟩

/-- C2: `detach_product(order_id, product_id)` fails with the 400
`"Invalid order id or product id."` response if either id does not
resolve; fails with the 400 `"Product not found in this order."`
response if the pair is absent from the association set; otherwise
removes the pair, so that a subsequent `list_products_for_order`
no longer contains that product. -/
theorem detach_product_three_way (s : Store) (oid pid : Int) :
    ((findOrder s oid = none ∨ findProduct s pid = none) →
      remove_product s oid pid = (s, .invalidIds) ∧ DetachResult.invalidIds.status = 400) ∧
    (∀ o q, findOrder s oid = some o → findProduct s pid = some q →
      ((oid, pid) ∉ s.order_products →
        remove_product s oid pid = (s, .notInOrder) ∧ DetachResult.notInOrder.status = 400) ∧
      ((oid, pid) ∈ s.order_products →
        remove_product s oid pid =
          ({ s with
              order_products := s.order_products.filter (fun pr => pr ≠ (oid, pid)) },
           .success) ∧
        DetachResult.success.status = 200 ∧
        ∀ ps, get_products_for_order (remove_product s oid pid).1 oid = .ok ps →
          ∀ r ∈ ps, r.id ≠ pid)) := by
  refine ⟨fun h => ⟨remove_product_eq_of_invalid h, rfl⟩, ?_⟩
  intro o q ho hp
  refine ⟨fun hm => ⟨remove_product_eq_of_not_mem ho hp hm, rfl⟩, fun hm => ?_⟩
  have h1 := remove_product_eq_of_mem ho hp hm
  refine ⟨h1, rfl, ?_⟩
  intro ps hps r hr
  have key : (remove_product s oid pid).1 =
      { s with order_products := s.order_products.filter (fun pr => pr ≠ (oid, pid)) } := by
    rw [h1]
  rw [key] at hps
  have ho' : findOrder
      { s with order_products := s.order_products.filter (fun pr => pr ≠ (oid, pid)) } oid
      = some o := ho
  rw [get_products_for_order_eq_of_some ho'] at hps
  injection hps with hps'
  subst hps'
  have hoid := findOrder_id ho
  rw [hoid] at hr
  simp only [productsForOrder, List.mem_filterMap] at hr
  obtain ⟨pr, hpr, hfind⟩ := hr
  have hrid : r.id = pr.2 := findProduct_id hfind
  have hpr1 : pr.1 = oid := by simpa using List.of_mem_filter hpr
  have hprmem : pr ∈ s.order_products.filter (fun x => x ≠ (oid, pid)) :=
    List.mem_of_mem_filter hpr
  have hprne : pr ≠ (oid, pid) := by simpa using List.of_mem_filter hprmem
  rw [hrid]
  intro hcontra
  exact hprne (Prod.ext hpr1 hcontra)

theorem detach_product_three_way_witness :
    (remove_product demoStore2 1 1).2 = DetachResult.success ∧
    (∀ ps, get_products_for_order (remove_product demoStore2 1 1).1 1 =
        ListProductsResult.ok ps → ∀ r ∈ ps, r.id ≠ 1) := by
  have h := ((detach_product_three_way demoStore2 1 1).2
    ⟨1, "2024-01-01", 1⟩ ⟨1, "Widget", 5⟩ rfl rfl).2 (by decide)
  exact ⟨by rw [h.1], h.2.2⟩

/-- C10: after a successful `attach_product(order_id, product_id)`, a
subsequent `list_products_for_order(order_id)` succeeds and its result
contains the product with id `product_id`. -/
theorem attach_then_list_contains (s : Store) (oid pid : Int)
    (h : (add_product s oid pid).2 = .success) :
    ∃ ps, get_products_for_order (add_product s oid pid).1 oid = .ok ps ∧
      ∃ r ∈ ps, r.id = pid := by
  cases hfo : findOrder s oid with
  | none =>
    rw [add_product_eq_of_invalid (Or.inl hfo)] at h
    simp at h
  | some o =>
    cases hfp : findProduct s pid with
    | none =>
      rw [add_product_eq_of_invalid (Or.inr hfp)] at h
      simp at h
    | some q =>
      by_cases hm : (oid, pid) ∈ s.order_products
      · rw [add_product_eq_of_mem hfo hfp hm] at h
        simp at h
      · have h1 := add_product_eq_of_not_mem hfo hfp hm
        have key : (add_product s oid pid).1 =
            { s with order_products := s.order_products ++ [(oid, pid)] } := by rw [h1]
        rw [key]
        have ho' : findOrder { s with order_products := s.order_products ++ [(oid, pid)] } oid
            = some o := hfo
        rw [get_products_for_order_eq_of_some ho']
        refine ⟨_, rfl, ?_⟩
        have hoid := findOrder_id hfo
        rw [hoid]
        refine ⟨q, ?_, findProduct_id hfp⟩
        simp only [productsForOrder, List.mem_filterMap]
        refine ⟨(oid, pid), ?_, hfp⟩
        rw [List.mem_filter]
        refine ⟨List.mem_append_right _ (List.mem_singleton.2 rfl), by simp⟩

theorem attach_then_list_contains_witness :
    ∃ ps, get_products_for_order (add_product demoStore 1 1).1 1 = .ok ps ∧
      ∃ r ∈ ps, r.id = 1 :=
  attach_then_list_contains demoStore 1 1 (by decide)

/-- A valid `POST /users` body. -/
def demoUserPayload : Payload :=
  [("name", .str "Ann"), ("email", .str "ann@x.com"), ("address", .str "1 Main St")]

/-- A valid `POST /products` body. -/
def demoProductPayload : Payload :=
  [("product_name", .str "Widget"), ("price", .num 5)]

/-- A valid `POST /orders` body referencing user 1. -/
def demoOrderPayload : Payload :=
  [("order_date", .str "2024-01-01"), ("user_id", .num 1)]

/-- The store reached from a fresh database by `POST /users`,
`POST /products`, `POST /orders`, `PUT /orders/1/add_product/1`. -/
def demoReached : Store :=
  applyOp (applyOp (applyOp (applyOp emptyStore (.addUser demoUserPayload))
    (.createProduct demoProductPayload)) (.addOrder demoOrderPayload))
    (.attachProduct 1 1)

theorem demoReached_reachable : Reachable demoReached := by
  unfold demoReached
  exact .step _ _ (.step _ _ (.step _ _ (.step _ _ .empty)))

/-- C3: in every store reachable from the fresh database, the
association table contains each (order_id, product_id) pair at most
once, every operation preserves this, and attaching an already-present
pair is rejected as a conflict with the store unchanged. -/
theorem assoc_pair_at_most_once (s : Store) (h : Reachable s) :
    s.order_products.Nodup ∧
    (∀ op, (applyOp s op).order_products.Nodup) ∧
    ∀ oid pid, (oid, pid) ∈ s.order_products →
      add_product s oid pid = (s, AttachResult.conflict) := by
  have hinv := storeInv_reachable h
  refine ⟨hinv.assoc_nodup, fun op => (storeInv_applyOp hinv op).assoc_nodup, ?_⟩
  intro oid pid hm
  obtain ⟨o, ho, hoe⟩ := hinv.assoc_order_live (oid, pid) hm
  obtain ⟨q, hq, hqe⟩ := hinv.assoc_product_live (oid, pid) hm
  have hfo : ∃ o', findOrder s oid = some o' := by
    rw [← Option.isSome_iff_exists]
    simp only [findOrder, List.find?_isSome]
    exact ⟨o, ho, by simpa using hoe⟩
  have hfp : ∃ q', findProduct s pid = some q' := by
    rw [← Option.isSome_iff_exists]
    simp only [findProduct, List.find?_isSome]
    exact ⟨q, hq, by simpa using hqe⟩
  obtain ⟨o', ho'⟩ := hfo
  obtain ⟨q', hq'⟩ := hfp
  exact add_product_eq_of_mem ho' hq' hm

theorem assoc_pair_at_most_once_witness :
    demoReached.order_products.Nodup ∧
    (∀ op, (applyOp demoReached op).order_products.Nodup) ∧
    ∀ oid pid, (oid, pid) ∈ demoReached.order_products →
      add_product demoReached oid pid = (demoReached, AttachResult.conflict) :=
  assoc_pair_at_most_once demoReached demoReached_reachable

/-- C4: creating an Order whose `user_id` does not reference an
existing User fails with the 400 `"Invalid customer id"` response and
leaves the store unchanged; if the user exists, the Order is created
with the given `order_date` and `user_id`. -/
theorem add_order_checks_user (s : Store) (p : Payload) (d : LoadedOrder)
    (h : orderSchemaLoad p = some d) :
    (findUser s d.user_id = none →
      add_order s p = (s, .invalidCustomer) ∧
      CreateOrderResult.invalidCustomer.status = 400) ∧
    (∀ u, findUser s d.user_id = some u →
      add_order s p =
        ({ s with orders := s.orders ++ [⟨s.next_order_id, d.order_date, d.user_id⟩],
                  next_order_id := s.next_order_id + 1 },
         .created ⟨s.next_order_id, d.order_date, d.user_id⟩) ∧
      CreateOrderResult.status (.created ⟨s.next_order_id, d.order_date, d.user_id⟩) = 201) :=
  ⟨fun hu => ⟨add_order_eq_of_user_none h hu, rfl⟩,
    fun _ hu => ⟨add_order_eq_of_user_some h hu, rfl⟩⟩

theorem add_order_checks_user_witness :
    add_order demoStore [("order_date", JVal.str "2024-02-02"), ("user_id", JVal.num 2)] =
      (demoStore, CreateOrderResult.invalidCustomer) :=
  ((add_order_checks_user demoStore
    [("order_date", JVal.str "2024-02-02"), ("user_id", JVal.num 2)]
    ⟨"2024-02-02", 2⟩ rfl).1 rfl).1

/-- C6: when the id does not resolve to an existing entity, `PUT
/users/<id>` and `PUT /products/<id>` answer 404 NotFound for every
request body, including invalid ones — the existence check runs before
any payload validation. -/
theorem update_not_found_before_validation (s : Store) (id : Int) (p : Payload) :
    (findUser s id = none →
      update_user s id p = (s, .notFound) ∧
      (UpdateResult.notFound : UpdateResult UserRec).status = 404) ∧
    (findProduct s id = none →
      update_product s id p = (s, .notFound) ∧
      (UpdateResult.notFound : UpdateResult ProductRec).status = 404) :=
  ⟨fun h => ⟨update_user_eq_of_find_none h, rfl⟩,
    fun h => ⟨update_product_eq_of_find_none h, rfl⟩⟩

theorem update_not_found_before_validation_witness :
    update_user emptyStore 1 [("bogus", JVal.num 1)] = (emptyStore, UpdateResult.notFound) ∧
    update_product emptyStore 1 [("bogus", JVal.num 1)] = (emptyStore, UpdateResult.notFound) :=
  ⟨((update_not_found_before_validation emptyStore 1 [("bogus", JVal.num 1)]).1 rfl).1,
    ((update_not_found_before_validation emptyStore 1 [("bogus", JVal.num 1)]).2 rfl).1⟩

/-- C9: deleting an existing User succeeds (200) and a subsequent
fetch of the same id answers 404 NotFound. -/
theorem delete_then_get_user_not_found (s : Store) (id : Int) (u : UserRec)
    (h : findUser s id = some u) :
    (delete_user s id).2 = .deleted ∧ DeleteResult.deleted.status = 200 ∧
    get_user (delete_user s id).1 id = .notFound ∧ GetUserResult.notFound.status = 404 := by
  have h1 := delete_user_eq_of_find_some h
  have key : (delete_user s id).1 =
      { s with users := s.users.filter (fun v => v.id ≠ id) } := by rw [h1]
  refine ⟨by rw [h1], rfl, ?_, rfl⟩
  rw [key]
  apply get_user_eq_of_none
  simp only [findUser, List.find?_eq_none]
  intro v hv
  simpa using List.of_mem_filter hv

theorem delete_then_get_user_not_found_witness :
    (delete_user demoStore 1).2 = DeleteResult.deleted ∧
    DeleteResult.deleted.status = 200 ∧
    get_user (delete_user demoStore 1).1 1 = GetUserResult.notFound ∧
    GetUserResult.notFound.status = 404 :=
  delete_then_get_user_not_found demoStore 1 ⟨1, "Ann", "ann@x.com", "1 Main St"⟩ rfl

/-- C5: for an existing entity id and a loadable partial body, the
update overwrites exactly the fields present in the body; absent
fields keep their prior values, every other entity row is unchanged,
the other tables are untouched, and a body containing an unknown key
leaves the whole store unchanged (the load raises). -/
theorem update_applies_only_present_fields (s : Store) (id : Int) (p : Payload) :
    (∀ u d, findUser s id = some u → userSchemaLoadPatch p = some d →
      update_user s id p =
        ({ s with users := s.users.map (fun v => if v.id = id then applyUserPatch d v else v) },
         .updated (applyUserPatch d u)) ∧
      (d.name = none → (applyUserPatch d u).name = u.name) ∧
      (d.email = none → (applyUserPatch d u).email = u.email) ∧
      (d.address = none → (applyUserPatch d u).address = u.address) ∧
      (∀ n, d.name = some n → (applyUserPatch d u).name = n) ∧
      (∀ e, d.email = some e → (applyUserPatch d u).email = e) ∧
      (∀ a, d.address = some a → (applyUserPatch d u).address = a) ∧
      (∀ v ∈ s.users, v.id ≠ id → v ∈ (update_user s id p).1.users) ∧
      (update_user s id p).1.products = s.products ∧
      (update_user s id p).1.orders = s.orders ∧
      (update_user s id p).1.order_products = s.order_products) ∧
    (∀ q d, findProduct s id = some q → productSchemaLoadPatch p = some d →
      update_product s id p =
        ({ s with
            products := s.products.map (fun v => if v.id = id then applyProductPatch d v else v) },
         .updated (applyProductPatch d q)) ∧
      (d.product_name = none → (applyProductPatch d q).product_name = q.product_name) ∧
      (d.price = none → (applyProductPatch d q).price = q.price) ∧
      (∀ v ∈ s.products, v.id ≠ id → v ∈ (update_product s id p).1.products) ∧
      (update_product s id p).1.users = s.users ∧
      (update_product s id p).1.orders = s.orders ∧
      (update_product s id p).1.order_products = s.order_products) ∧
    (∀ k w, (k, w) ∈ p → k ∉ userKeys → (update_user s id p).1 = s) ∧
    (∀ k w, (k, w) ∈ p → k ∉ productKeys → (update_product s id p).1 = s) := by
  refine ⟨?_, ?_, ?_, ?_⟩
  · intro u d hu hd
    have h1 := update_user_eq_of_patch_some hu hd
    have key : (update_user s id p).1 =
        { s with users := s.users.map (fun v => if v.id = id then applyUserPatch d v else v) } := by
      rw [h1]
    refine ⟨h1, fun hn => by simp [applyUserPatch, hn], fun hn => by simp [applyUserPatch, hn],
      fun hn => by simp [applyUserPatch, hn],
      fun n hn => by simp [applyUserPatch, hn], fun e hn => by simp [applyUserPatch, hn],
      fun a hn => by simp [applyUserPatch, hn], ?_, by rw [key], by rw [key], by rw [key]⟩
    intro v hv hne
    rw [key]
    exact List.mem_map.2 ⟨v, hv, by rw [if_neg hne]⟩
  · intro q d hq hd
    have h1 := update_product_eq_of_patch_some hq hd
    have key : (update_product s id p).1 =
        { s with
            products := s.products.map (fun v => if v.id = id then applyProductPatch d v else v) } := by
      rw [h1]
    refine ⟨h1, fun hn => by simp [applyProductPatch, hn], fun hn => by simp [applyProductPatch, hn],
      ?_, by rw [key], by rw [key], by rw [key]⟩
    intro v hv hne
    rw [key]
    exact List.mem_map.2 ⟨v, hv, by rw [if_neg hne]⟩
  · intro k w hkw hk
    have hfalse : p.all (fun kv => kv.1 ∈ userKeys) = false := by
      refine Bool.eq_false_iff.2 fun hall => ?_
      rw [List.all_eq_true] at hall
      exact hk (by simpa using hall (k, w) hkw)
    have hload : userSchemaLoadPatch p = none := by
      simp [userSchemaLoadPatch, hfalse]
    cases hf : findUser s id with
    | none => rw [update_user_eq_of_find_none hf]
    | some u => rw [update_user_eq_of_patch_none hf hload]
  · intro k w hkw hk
    have hfalse : p.all (fun kv => kv.1 ∈ productKeys) = false := by
      refine Bool.eq_false_iff.2 fun hall => ?_
      rw [List.all_eq_true] at hall
      exact hk (by simpa using hall (k, w) hkw)
    have hload : productSchemaLoadPatch p = none := by
      simp [productSchemaLoadPatch, hfalse]
    cases hf : findProduct s id with
    | none => rw [update_product_eq_of_find_none hf]
    | some q => rw [update_product_eq_of_patch_none hf hload]

theorem update_applies_only_present_fields_witness :
    update_user demoStore 1 [("email", JVal.str "new@x.com")] =
      ({ demoStore with users := [⟨1, "Ann", "new@x.com", "1 Main St"⟩] },
       UpdateResult.updated ⟨1, "Ann", "new@x.com", "1 Main St"⟩) := by
  have h := ((update_applies_only_present_fields demoStore 1
    [("email", JVal.str "new@x.com")]).1
    ⟨1, "Ann", "ann@x.com", "1 Main St"⟩ ⟨none, some "new@x.com", none⟩ rfl rfl).1
  rw [h]; rfl

/-- C7 counterexample: a `POST /users` body that supplies only `name`
is rejected with the 400 validation response — it does not succeed
with 201 as the claim states (the `email` and `address` columns are
non-nullable, so the auto-generated schema requires them, and the
handler reads both unconditionally). -/
theorem user_name_only_rejected :
    add_user emptyStore [("name", JVal.str "Ann")] =
      (emptyStore, CreateUserResult.validationError) ∧
    CreateUserResult.validationError.status = 400 := by
  exact ⟨rfl, rfl⟩

/-- C7 amended: for the User entity all three of `name`, `email` and
`address` are required — a body missing any of them fails with the 400
validation response and creates no row, and a body that loads
successfully is created with 201 and the supplied values. -/
theorem user_creation_requires_all_fields (s : Store) (p : Payload) :
    ((lookupKey p "name" = none ∨ lookupKey p "email" = none ∨
        lookupKey p "address" = none) →
      add_user s p = (s, .validationError) ∧
      CreateUserResult.validationError.status = 400) ∧
    (∀ d, userSchemaLoad p = some d →
      add_user s p =
        ({ s with users := s.users ++ [⟨s.next_user_id, d.name, d.email, d.address⟩],
                  next_user_id := s.next_user_id + 1 },
         .created ⟨s.next_user_id, d.name, d.email, d.address⟩) ∧
      CreateUserResult.status ((add_user s p).2) = 201) := by
  constructor
  · intro h
    have hload : userSchemaLoad p = none := by
      unfold userSchemaLoad
      split
      · rcases h with h | h | h
        · simp [h]
        · cases h1 : (lookupKey p "name").bind asStr <;> simp [h]
        · cases h1 : (lookupKey p "name").bind asStr <;>
            cases h2 : (lookupKey p "email").bind asStr <;> simp [h]
      · rfl
    exact ⟨add_user_eq_of_load_none hload, rfl⟩
  · intro d hd
    have h1 := @add_user_eq_of_load_some s p d hd
    exact ⟨h1, by rw [h1]; rfl⟩

theorem user_creation_requires_all_fields_witness :
    add_user emptyStore [("name", JVal.str "Alice")] =
      (emptyStore, CreateUserResult.validationError) ∧
    (add_user emptyStore demoUserPayload).2 =
      CreateUserResult.created ⟨1, "Ann", "ann@x.com", "1 Main St"⟩ := by
  refine ⟨((user_creation_requires_all_fields emptyStore
    [("name", JVal.str "Alice")]).1 (Or.inr (Or.inl rfl))).1, ?_⟩
  have h := ((user_creation_requires_all_fields emptyStore demoUserPayload).2
    ⟨"Ann", "ann@x.com", "1 Main St"⟩ rfl).1
  exact congrArg Prod.snd h

/-- C8: for a reachable store and a body that loads through
`user_schema`, the created user carries the supplied `name`, `email`
and `address`, and fetching the assigned id returns exactly that row
(round-trip). -/
theorem user_create_then_get_roundtrip (s : Store) (p : Payload) (d : LoadedUser)
    (hs : Reachable s) (h : userSchemaLoad p = some d) :
    (add_user s p).2 = .created ⟨s.next_user_id, d.name, d.email, d.address⟩ ∧
    CreateUserResult.status ((add_user s p).2) = 201 ∧
    get_user (add_user s p).1 s.next_user_id =
      .ok ⟨s.next_user_id, d.name, d.email, d.address⟩ := by
  have h1 := @add_user_eq_of_load_some s p d h
  have key : (add_user s p).1 =
      { s with users := s.users ++ [⟨s.next_user_id, d.name, d.email, d.address⟩],
               next_user_id := s.next_user_id + 1 } := by rw [h1]
  have h2 : (add_user s p).2 = .created ⟨s.next_user_id, d.name, d.email, d.address⟩ := by
    rw [h1]
  refine ⟨h2, by rw [h2]; rfl, ?_⟩
  rw [key]
  apply get_user_eq_of_some
  have hfresh := (storeInv_reachable hs).user_id_lt
  simp only [findUser]
  rw [List.find?_append]
  have hnone : s.users.find? (fun u => u.id = s.next_user_id) = none := by
    rw [List.find?_eq_none]
    intro v hv
    have hlt := hfresh v hv
    simp only [decide_eq_true_eq]
    omega
  rw [hnone]
  simp

theorem user_create_then_get_roundtrip_witness :
    (add_user emptyStore demoUserPayload).2 =
      CreateUserResult.created ⟨1, "Ann", "ann@x.com", "1 Main St"⟩ ∧
    CreateUserResult.status ((add_user emptyStore demoUserPayload).2) = 201 ∧
    get_user (add_user emptyStore demoUserPayload).1 1 =
      GetUserResult.ok ⟨1, "Ann", "ann@x.com", "1 Main St"⟩ :=
  user_create_then_get_roundtrip emptyStore demoUserPayload
    ⟨"Ann", "ann@x.com", "1 Main St"⟩ Reachable.empty rfl
